import Mathlib

/-!
Verification of the outlier-filtering library of the weather-sensor
dashboard (`src/lib/outlierFilter.ts`), embedded shallowly in Lean 4.

JavaScript numbers are modelled by `JNum`: a rational for finite values,
together with the two infinities and NaN, with the arithmetic the filter
performs (`-`, `/`, `Math.abs`, `*`, `>`) given JS semantics on those
constructors.  Sensor readings and the two exported functions
`filterOutliers` and `filterMultipleSensorOutliers` are translated
directly from the source.
-/

/-- Model of a JavaScript number as used by the filter: a finite rational,
positive or negative infinity, or NaN. -/
inductive JNum where
  | fin : ℚ → JNum
  | inf : JNum
  | ninf : JNum
  | nan : JNum
deriving DecidableEq, Repr

/-- JS subtraction on `JNum`. -/
def jsub : JNum → JNum → JNum
  | .nan, _ => .nan
  | _, .nan => .nan
  | .fin a, .fin b => .fin (a - b)
  | .fin _, .inf => .ninf
  | .fin _, .ninf => .inf
  | .inf, .fin _ => .inf
  | .ninf, .fin _ => .ninf
  | .inf, .ninf => .inf
  | .ninf, .inf => .ninf
  | .inf, .inf => .nan
  | .ninf, .ninf => .nan

/-- JS division on `JNum`: division of a nonzero finite value by zero gives
a signed infinity, `0 / 0` gives NaN. -/
def jdiv : JNum → JNum → JNum
  | .nan, _ => .nan
  | _, .nan => .nan
  | .fin a, .fin b =>
      if b = 0 then
        if a = 0 then .nan else if a > 0 then .inf else .ninf
      else .fin (a / b)
  | .inf, .fin b => if b < 0 then .ninf else .inf
  | .ninf, .fin b => if b < 0 then .inf else .ninf
  | .fin _, .inf => .fin 0
  | .fin _, .ninf => .fin 0
  | .inf, .inf => .nan
  | .inf, .ninf => .nan
  | .ninf, .inf => .nan
  | .ninf, .ninf => .nan

/-- JS `Math.abs` on `JNum`: the magnitude of a finite value, written with
an explicit sign test. -/
def jabs : JNum → JNum
  | .fin a => .fin (if a < 0 then -a else a)
  | .inf => .inf
  | .ninf => .inf
  | .nan => .nan

/-- JS multiplication on `JNum`. -/
def jmul : JNum → JNum → JNum
  | .nan, _ => .nan
  | _, .nan => .nan
  | .fin a, .fin b => .fin (a * b)
  | .inf, .fin b => if b = 0 then .nan else if b > 0 then .inf else .ninf
  | .fin a, .inf => if a = 0 then .nan else if a > 0 then .inf else .ninf
  | .ninf, .fin b => if b = 0 then .nan else if b > 0 then .ninf else .inf
  | .fin a, .ninf => if a = 0 then .nan else if a > 0 then .ninf else .inf
  | .inf, .inf => .inf
  | .ninf, .ninf => .inf
  | .inf, .ninf => .ninf
  | .ninf, .inf => .ninf

/-- JS strict greater-than on `JNum`: any comparison with NaN is false. -/
def jgt : JNum → JNum → Bool
  | .nan, _ => false
  | _, .nan => false
  | .fin a, .fin b => decide (a > b)
  | .inf, .inf => false
  | .inf, _ => true
  | .ninf, _ => false
  | .fin _, .inf => false
  | .fin _, .ninf => true

/-- Model of `SensorReading` from `useSensorReadings.ts`; the opaque
`event` payload is modelled by an identifier. -/
structure SensorReading where
  timestamp : Int
  sensorType : String
  value : JNum
  model : String
  event : Nat
deriving DecidableEq, Repr

/-- Model of `OutlierInfo` from `outlierFilter.ts`. -/
structure OutlierInfo where
  timestamp : Int
  value : JNum
  previousValue : JNum
  percentChange : JNum
  sensorType : String
  sensorModel : String
  stationName : String
deriving DecidableEq, Repr

/-- Model of `FilteredReadings` from `outlierFilter.ts`. -/
structure FilteredReadings where
  validReadings : List SensorReading
  outliers : List OutlierInfo
deriving DecidableEq, Repr

/-- The percent-change expression from the loop body of `filterOutliers`:
`Math.abs((current.value - previous.value) / previous.value) * 100`. -/
def percentChangeOf (cur prev : JNum) : JNum :=
  jmul (jabs (jdiv (jsub cur prev) prev)) (.fin 100)

/-- The loop of `filterOutliers` for indices `i ≥ 1`: `prev` is the raw
element `readings[i - 1]`, and becomes the current element on the next
iteration whether or not the current element was accepted. -/
def filterRest (stationName : String) (prev : SensorReading) :
    List SensorReading → FilteredReadings
  | [] => ⟨[], []⟩
  | current :: rest =>
      if jgt (percentChangeOf current.value prev.value) (.fin 300) then
        ⟨(filterRest stationName current rest).validReadings,
         { timestamp := current.timestamp
           value := current.value
           previousValue := prev.value
           percentChange := percentChangeOf current.value prev.value
           sensorType := current.sensorType
           sensorModel := current.model
           stationName := stationName }
           :: (filterRest stationName current rest).outliers⟩
      else
        ⟨current :: (filterRest stationName current rest).validReadings,
         (filterRest stationName current rest).outliers⟩

/-- Model of `filterOutliers` from `outlierFilter.ts`: the first reading is
always valid, every later reading is compared against the raw previous
element. -/
def filterOutliers (readings : List SensorReading) (stationName : String) :
    FilteredReadings :=
  match readings with
  | [] => ⟨[], []⟩
  | r0 :: rest =>
      let r := filterRest stationName r0 rest
      ⟨r0 :: r.validReadings, r.outliers⟩

/-- Model of the sensor identity record in `filterMultipleSensorOutliers`. -/
structure SensorIdentity where
  pubkey : String
  sensorType : String
  sensorModel : String
deriving DecidableEq, Repr

/-- Model of one input entry of `filterMultipleSensorOutliers`. -/
structure SensorEntry where
  sensor : SensorIdentity
  readings : List SensorReading
deriving DecidableEq, Repr

/-- The composite key built in `filterMultipleSensorOutliers`. -/
def sensorKey (s : SensorIdentity) : String :=
  s.pubkey ++ "-" ++ s.sensorType ++ "-" ++ s.sensorModel

/-- The expression `stationNames[sensorKey] || 'Unknown'`: a JS `Record` is
modelled as a partial map, and `||` treats both a missing key and an empty
string as falsy. -/
def lookupOrUnknown (stationNames : String → Option String) (key : String) :
    String :=
  match stationNames key with
  | none => "Unknown"
  | some s => if s = "" then "Unknown" else s

/-- Model of the result record of `filterMultipleSensorOutliers`. -/
structure MultiFiltered where
  filteredData : List SensorEntry
  allOutliers : List OutlierInfo
deriving DecidableEq, Repr

/-- Model of `filterMultipleSensorOutliers` from `outlierFilter.ts`. -/
def filterMultipleSensorOutliers (data : List SensorEntry)
    (stationNames : String → Option String) : MultiFiltered :=
  match data with
  | [] => ⟨[], []⟩
  | item :: rest =>
      ⟨⟨item.sensor,
        (filterOutliers item.readings
          (lookupOrUnknown stationNames (sensorKey item.sensor))).validReadings⟩
        :: (filterMultipleSensorOutliers rest stationNames).filteredData,
       (filterOutliers item.readings
          (lookupOrUnknown stationNames (sensorKey item.sensor))).outliers
        ++ (filterMultipleSensorOutliers rest stationNames).allOutliers⟩

/-! ### Helper lemmas -/

/-- The loop preserves the count: every iteration pushes the current
element onto exactly one of the two output lists. -/
theorem filterRest_length (n : String) (prev : SensorReading)
    (rest : List SensorReading) :
    (filterRest n prev rest).validReadings.length
      + (filterRest n prev rest).outliers.length = rest.length := by
  induction rest generalizing prev with
  | nil => simp [filterRest]
  | cons c cs ih =>
      rw [filterRest]
      split
      · simp only [List.length_cons]
        have := ih c
        omega
      · simp only [List.length_cons]
        have := ih c
        omega

/-- Every outlier record produced by the loop carries the station name the
loop was given. -/
theorem filterRest_stationName (n : String) (prev : SensorReading)
    (rest : List SensorReading) :
    ∀ o ∈ (filterRest n prev rest).outliers, o.stationName = n := by
  induction rest generalizing prev with
  | nil => simp [filterRest]
  | cons c cs ih =>
      simp only [filterRest]
      split
      · intro o ho
        rcases List.mem_cons.mp ho with h | h
        · simp [h]
        · exact ih c o h
      · exact ih c

/-- Every outlier record produced by the loop originates from an element of
the tail being scanned. -/
theorem filterRest_outlier_src (n : String) (prev : SensorReading)
    (rest : List SensorReading) :
    ∀ o ∈ (filterRest n prev rest).outliers,
      ∃ c ∈ rest, o.timestamp = c.timestamp ∧ o.value = c.value := by
  induction rest generalizing prev with
  | nil => simp [filterRest]
  | cons c cs ih =>
      simp only [filterRest]
      split
      · intro o ho
        rcases List.mem_cons.mp ho with h | h
        · exact ⟨c, List.mem_cons_self c cs, by simp [h]⟩
        · obtain ⟨d, hd, hts, hv⟩ := ih c o h
          exact ⟨d, List.mem_cons_of_mem c hd, hts, hv⟩
      · intro o ho
        obtain ⟨d, hd, hts, hv⟩ := ih c o ho
        exact ⟨d, List.mem_cons_of_mem c hd, hts, hv⟩

/-! ### Claim theorems -/

/-- C4: for every input sequence `S`, the lengths of the two output lists
of `filterOutliers` sum to the length of `S`; for an empty input both
output lists are empty. -/
theorem c4_length_invariant (S : List SensorReading) (n : String) :
    (filterOutliers S n).validReadings.length
      + (filterOutliers S n).outliers.length = S.length ∧
    (filterOutliers ([] : List SensorReading) n).validReadings = [] ∧
    (filterOutliers ([] : List SensorReading) n).outliers = [] := by
  refine ⟨?_, rfl, rfl⟩
  cases S with
  | nil => simp [filterOutliers]
  | cons r0 rest =>
      simp only [filterOutliers, List.length_cons]
      have := filterRest_length n r0 rest
      omega

/-- C5: for every non-empty input, the first reading is unconditionally the
first element of `validReadings`, and every outlier record originates from
a reading of the tail, so the first reading is never emitted as an
outlier. -/
theorem c5_first_always_valid (r0 : SensorReading) (rs : List SensorReading)
    (n : String) :
    (filterOutliers (r0 :: rs) n).validReadings.head? = some r0 ∧
    ∀ o ∈ (filterOutliers (r0 :: rs) n).outliers,
      ∃ c ∈ rs, o.timestamp = c.timestamp ∧ o.value = c.value := by
  constructor
  · simp [filterOutliers]
  · intro o ho
    have hmem : o ∈ (filterRest n r0 rs).outliers := by
      simpa [filterOutliers] using ho
    exact filterRest_outlier_src n r0 rs o hmem

/-- A reading of the concrete scenario of the spec, with fixed sensor type
and model. -/
def scenarioReading (t : Int) (v : ℚ) : SensorReading :=
  ⟨t, "temp", .fin v, "model-a", 0⟩

/-- The concrete input sequence `[(t=0, v=10), (t=1, v=11), (t=2, v=50),
(t=3, v=12)]`. -/
def scenarioReadings : List SensorReading :=
  [scenarioReading 0 10, scenarioReading 1 11,
   scenarioReading 2 50, scenarioReading 3 12]

/-- C2: on the concrete scenario, the valid values are `[10, 11, 12]` and
there is exactly one outlier record, with value `50`, previous value `11`,
and percent change `3900 / 11`, which is within `0.1` of `354.5`. -/
theorem c2_concrete_scenario :
    (filterOutliers scenarioReadings "st").validReadings.map
        SensorReading.value = [JNum.fin 10, JNum.fin 11, JNum.fin 12] ∧
    (filterOutliers scenarioReadings "st").outliers.map OutlierInfo.value
      = [JNum.fin 50] ∧
    (filterOutliers scenarioReadings "st").outliers.map
        OutlierInfo.previousValue = [JNum.fin 11] ∧
    (filterOutliers scenarioReadings "st").outliers.map
        OutlierInfo.percentChange = [JNum.fin (3900 / 11)] ∧
    |(3900 : ℚ) / 11 - 709 / 2| < 1 / 10 := by
  refine ⟨?_, ?_, ?_, ?_, ?_⟩ <;>
    norm_num [filterOutliers, scenarioReadings, scenarioReading, filterRest,
      percentChangeOf, jsub, jdiv, jabs, jmul, jgt]
  rw [abs_of_pos] <;> norm_num

/-- The loop output written as a scan over adjacent raw pairs: for every
index the comparison baseline is the raw predecessor, whether or not that
predecessor was accepted. -/
theorem filterRest_eq_pairs (n : String) (prev : SensorReading)
    (rest : List SensorReading) :
    (filterRest n prev rest).outliers
      = ((prev :: rest).zip rest).filterMap (fun pc =>
          if jgt (percentChangeOf pc.2.value pc.1.value) (JNum.fin 300) then
            some ⟨pc.2.timestamp, pc.2.value, pc.1.value,
                  percentChangeOf pc.2.value pc.1.value,
                  pc.2.sensorType, pc.2.model, n⟩
          else none) ∧
    (filterRest n prev rest).validReadings
      = ((prev :: rest).zip rest).filterMap (fun pc =>
          if jgt (percentChangeOf pc.2.value pc.1.value) (JNum.fin 300) then
            none
          else some pc.2) := by
  induction rest generalizing prev with
  | nil => exact ⟨rfl, rfl⟩
  | cons c cs ih =>
      rw [filterRest]
      by_cases h : jgt (percentChangeOf c.value prev.value) (JNum.fin 300)
          = true
      · constructor
        · simp only [if_pos h, List.zip_cons_cons, List.filterMap_cons, h,
            if_true]
          exact congrArg _ (ih c).1
        · simp only [if_pos h, List.zip_cons_cons, List.filterMap_cons, h,
            if_true]
          exact (ih c).2
      · constructor
        · simp only [if_neg h, List.zip_cons_cons, List.filterMap_cons, h,
            if_false]
          exact (ih c).1
        · simp only [if_neg h, List.zip_cons_cons, List.filterMap_cons, h,
            if_false]
          exact congrArg _ (ih c).2

/-- Input whose second reading is rejected and whose third reading is then
compared against the rejected value. -/
def staleReadings : List SensorReading :=
  [scenarioReading 0 10, scenarioReading 1 100, scenarioReading 2 900]

/-- Input where a reading within 300% of its raw predecessor but more than
300% away from the last accepted value is accepted. -/
def shiftReadings : List SensorReading :=
  [scenarioReading 0 10, scenarioReading 1 100, scenarioReading 2 50]

/-- C1 counterexample: on `[10, 100, 900]` the only accepted value is `10`,
yet the second outlier record carries `previousValue = 100` — the value of
the rejected predecessor, not of the last accepted reading; and on
`[10, 100, 50]` the reading `50` is accepted although its percent change
from the last accepted value `10` is `400 > 300`, so the baseline is the
raw predecessor, not the last accepted reading. -/
theorem c1_counterexample :
    (filterOutliers staleReadings "st").validReadings.map SensorReading.value
      = [JNum.fin 10] ∧
    (filterOutliers staleReadings "st").outliers.map OutlierInfo.previousValue
      = [JNum.fin 10, JNum.fin 100] ∧
    JNum.fin (100 : ℚ) ≠ JNum.fin (10 : ℚ) ∧
    (filterOutliers shiftReadings "st").validReadings.map SensorReading.value
      = [JNum.fin 10, JNum.fin 50] ∧
    jgt (percentChangeOf (JNum.fin 50) (JNum.fin 10)) (JNum.fin 300)
      = true := by
  refine ⟨?_, ?_, ?_, ?_, ?_⟩ <;>
    norm_num [filterOutliers, staleReadings, shiftReadings, scenarioReading,
      filterRest, percentChangeOf, jsub, jdiv, jabs, jmul, jgt]

/-- C1 amended: the comparison baseline for every reading after the first
is the raw immediately preceding element, whether or not that element was
accepted, and every outlier record's `previousValue` is that raw
predecessor's value: the outputs are a `filterMap` over adjacent raw
pairs. -/
theorem c1_amended_raw_previous (r0 : SensorReading)
    (rs : List SensorReading) (n : String) :
    (filterOutliers (r0 :: rs) n).outliers
      = ((r0 :: rs).zip rs).filterMap (fun pc =>
          if jgt (percentChangeOf pc.2.value pc.1.value) (JNum.fin 300) then
            some ⟨pc.2.timestamp, pc.2.value, pc.1.value,
                  percentChangeOf pc.2.value pc.1.value,
                  pc.2.sensorType, pc.2.model, n⟩
          else none) ∧
    (filterOutliers (r0 :: rs) n).validReadings
      = r0 :: ((r0 :: rs).zip rs).filterMap (fun pc =>
          if jgt (percentChangeOf pc.2.value pc.1.value) (JNum.fin 300) then
            none
          else some pc.2) := by
  constructor
  · simpa [filterOutliers] using (filterRest_eq_pairs n r0 rs).1
  · simpa [filterOutliers] using
      congrArg (List.cons r0) (filterRest_eq_pairs n r0 rs).2

/-- The sign-test form of `jabs` on a finite value is the absolute value. -/
theorem jabs_fin (a : ℚ) : jabs (.fin a) = .fin |a| := by
  simp only [jabs]
  by_cases h : a < 0
  · rw [if_pos h, abs_of_neg h]
  · rw [if_neg h, abs_of_nonneg (not_lt.mp h)]

/-- On finite values with a nonzero reference, the percent change is the
finite rational `|(c - p) / p| * 100`. -/
theorem percentChangeOf_fin (c p : ℚ) (hp : p ≠ 0) :
    percentChangeOf (.fin c) (.fin p) = .fin (|(c - p) / p| * 100) := by
  simp only [percentChangeOf, jsub, jdiv, if_neg hp, jabs_fin, jmul]

/-- C3: with a zero reference, a nonzero reading divides by zero, yields
`Infinity`, exceeds the threshold, and is rejected; a zero reading yields
`0 / 0 = NaN`, and `NaN > 300` is false, so it is accepted; the function is
total, so neither case raises. -/
theorem c3_zero_reference (r0 r1 : SensorReading) (n : String) (q : ℚ)
    (h0 : r0.value = JNum.fin 0) :
    (r1.value = JNum.fin q → q ≠ 0 →
      percentChangeOf r1.value r0.value = JNum.inf ∧
      (filterOutliers [r0, r1] n).validReadings = [r0] ∧
      (filterOutliers [r0, r1] n).outliers.length = 1) ∧
    (r1.value = JNum.fin 0 →
      percentChangeOf r1.value r0.value = JNum.nan ∧
      (filterOutliers [r0, r1] n).validReadings = [r0, r1] ∧
      (filterOutliers [r0, r1] n).outliers = []) := by
  constructor
  · intro h1 hq
    have hpc : percentChangeOf r1.value r0.value = JNum.inf := by
      rw [h0, h1]
      by_cases hq2 : q > 0
      · simp [percentChangeOf, jsub, jdiv, jabs, jmul, hq, hq2]
      · have hqn : q < 0 := lt_of_le_of_ne (not_lt.mp hq2) hq
        simp [percentChangeOf, jsub, jdiv, jabs, jmul, hq, hq2, hqn,
          not_lt.mpr (le_of_lt hqn)]
    exact ⟨hpc, by simp [filterOutliers, filterRest, hpc, jgt],
      by simp [filterOutliers, filterRest, hpc, jgt]⟩
  · intro h1
    have hpc : percentChangeOf r1.value r0.value = JNum.nan := by
      rw [h0, h1]
      simp [percentChangeOf, jsub, jdiv, jabs, jmul]
    exact ⟨hpc, by simp [filterOutliers, filterRest, hpc, jgt],
      by simp [filterOutliers, filterRest, hpc, jgt]⟩

/-- C3 witness: on `[0, 5]` the `5` is rejected through `Infinity`, and on
`[0, 0]` the second `0` is accepted through `NaN`. -/
theorem c3_zero_reference_witness :
    (filterOutliers [scenarioReading 0 0, scenarioReading 1 5] "st").validReadings
      = [scenarioReading 0 0] ∧
    (filterOutliers [scenarioReading 0 0, scenarioReading 1 5] "st").outliers.length
      = 1 ∧
    (filterOutliers [scenarioReading 0 0, scenarioReading 1 0] "st").validReadings
      = [scenarioReading 0 0, scenarioReading 1 0] ∧
    (filterOutliers [scenarioReading 0 0, scenarioReading 1 0] "st").outliers
      = [] := by
  have ha := (c3_zero_reference (scenarioReading 0 0) (scenarioReading 1 5)
    "st" 5 rfl).1 rfl (by norm_num)
  have hb := (c3_zero_reference (scenarioReading 0 0) (scenarioReading 1 0)
    "st" 5 rfl).2 rfl
  exact ⟨ha.2.1, ha.2.2, hb.2.1, hb.2.2⟩

/-- C6: the threshold is strictly greater than 300 — a change of exactly
300% is accepted and any change above 300% is rejected — and the percent
change is taken in absolute value, so an upward step `p + d` and a
downward step `p - d` from the same reference produce the same percent
change. -/
theorem c6_strict_threshold_abs (p d : ℚ) (n : String)
    (r0 r1 : SensorReading) (hp : p ≠ 0)
    (h0 : r0.value = JNum.fin p) (h1 : r1.value = JNum.fin (p + d)) :
    percentChangeOf (JNum.fin (p + d)) (JNum.fin p)
      = percentChangeOf (JNum.fin (p - d)) (JNum.fin p) ∧
    (|d / p| * 100 = 300 →
      (filterOutliers [r0, r1] n).validReadings = [r0, r1] ∧
      (filterOutliers [r0, r1] n).outliers = []) ∧
    (|d / p| * 100 > 300 →
      (filterOutliers [r0, r1] n).validReadings = [r0] ∧
      (filterOutliers [r0, r1] n).outliers.map OutlierInfo.value
        = [r1.value]) := by
  have hpc : percentChangeOf r1.value r0.value = JNum.fin (|d / p| * 100) := by
    rw [h0, h1, percentChangeOf_fin _ _ hp, add_sub_cancel_left]
  refine ⟨?_, ?_, ?_⟩
  · rw [percentChangeOf_fin _ _ hp, percentChangeOf_fin _ _ hp,
      add_sub_cancel_left, sub_sub_cancel_left, neg_div, abs_neg]
  · intro h300
    rw [h300] at hpc
    constructor <;> simp [filterOutliers, filterRest, hpc, jgt]
  · intro h300
    constructor <;> simp [filterOutliers, filterRest, hpc, jgt, h300]

/-- C6 witness: from reference `1`, the reading `4` is a change of exactly
300% and is accepted, while the reading `5` is a 400% change and is
rejected. -/
theorem c6_strict_threshold_abs_witness :
    (filterOutliers [scenarioReading 0 1, scenarioReading 1 4] "st").validReadings
      = [scenarioReading 0 1, scenarioReading 1 4] ∧
    (filterOutliers [scenarioReading 0 1, scenarioReading 1 5] "st").validReadings
      = [scenarioReading 0 1] := by
  have ha := (c6_strict_threshold_abs 1 3 "st" (scenarioReading 0 1)
    (scenarioReading 1 4) (by norm_num) rfl
    (by norm_num [scenarioReading])).2.1
    (by rw [abs_of_pos] <;> norm_num)
  have hb := (c6_strict_threshold_abs 1 4 "st" (scenarioReading 0 1)
    (scenarioReading 1 5) (by norm_num) rfl
    (by norm_num [scenarioReading])).2.2
    (by rw [abs_of_pos] <;> norm_num)
  exact ⟨ha.1, hb.1⟩

/-- C8: each entry is processed independently — every output entry is the
single-sequence filter applied to that entry's readings alone — and
`allOutliers` is the concatenation of the per-entry outlier lists in
input-entry order, each list in the order the per-entry scan produced. -/
theorem c8_entries_independent (data : List SensorEntry)
    (m : String → Option String) :
    (filterMultipleSensorOutliers data m).filteredData
      = data.map (fun item =>
          ⟨item.sensor,
           (filterOutliers item.readings
             (lookupOrUnknown m (sensorKey item.sensor))).validReadings⟩) ∧
    (filterMultipleSensorOutliers data m).allOutliers
      = (data.map (fun item =>
          (filterOutliers item.readings
            (lookupOrUnknown m (sensorKey item.sensor))).outliers)).flatten := by
  induction data with
  | nil => exact ⟨rfl, rfl⟩
  | cons item rest ih =>
      rw [filterMultipleSensorOutliers]
      constructor
      · simp only [List.map_cons]
        exact congrArg _ ih.1
      · simp only [List.map_cons, List.flatten_cons]
        exact congrArg _ ih.2

/-- C7: when the composite key of the first entry is absent from the
station-name mapping, that entry's contribution to `allOutliers` is the
single-sequence filter run with station label `"Unknown"`, every such
record carries `stationName = "Unknown"`, and the function is total, so
the missing key never causes a failure. -/
theorem c7_missing_key_unknown (item : SensorEntry) (rest : List SensorEntry)
    (m : String → Option String)
    (habs : m (sensorKey item.sensor) = none) :
    (filterMultipleSensorOutliers (item :: rest) m).allOutliers
      = (filterOutliers item.readings "Unknown").outliers
        ++ (filterMultipleSensorOutliers rest m).allOutliers ∧
    ∀ o ∈ (filterOutliers item.readings "Unknown").outliers,
      o.stationName = "Unknown" := by
  have hlab : lookupOrUnknown m (sensorKey item.sensor) = "Unknown" := by
    simp [lookupOrUnknown, habs]
  constructor
  · rw [filterMultipleSensorOutliers, hlab]
  · intro o ho
    cases hr : item.readings with
    | nil => simp [hr, filterOutliers] at ho
    | cons r0 rs =>
        rw [hr] at ho
        have hmem : o ∈ (filterRest "Unknown" r0 rs).outliers := by
          simpa [filterOutliers] using ho
        exact filterRest_stationName "Unknown" r0 rs o hmem

/-- C7 witness: a two-reading entry with a 900% jump, fanned out with an
empty mapping, yields its outlier list labelled `"Unknown"`. -/
theorem c7_missing_key_unknown_witness :
    (filterMultipleSensorOutliers
        [⟨⟨"pk", "temp", "m1"⟩, [scenarioReading 0 10, scenarioReading 1 100]⟩]
        (fun _ => none)).allOutliers
      = (filterOutliers [scenarioReading 0 10, scenarioReading 1 100]
          "Unknown").outliers
        ++ (filterMultipleSensorOutliers [] (fun _ => none)).allOutliers ∧
    ∀ o ∈ (filterOutliers [scenarioReading 0 10, scenarioReading 1 100]
        "Unknown").outliers,
      o.stationName = "Unknown" :=
  c7_missing_key_unknown
    ⟨⟨"pk", "temp", "m1"⟩, [scenarioReading 0 10, scenarioReading 1 100]⟩
    [] (fun _ => none) rfl

/-- C10: when the mapping contains the composite key of the first entry but
maps it to the empty string, the station label still falls back to
`"Unknown"`, because the JS `||` treats the empty string as falsy. -/
theorem c10_empty_label_unknown (item : SensorEntry)
    (rest : List SensorEntry) (m : String → Option String)
    (hemp : m (sensorKey item.sensor) = some "") :
    lookupOrUnknown m (sensorKey item.sensor) = "Unknown" ∧
    (filterMultipleSensorOutliers (item :: rest) m).allOutliers
      = (filterOutliers item.readings "Unknown").outliers
        ++ (filterMultipleSensorOutliers rest m).allOutliers ∧
    ∀ o ∈ (filterOutliers item.readings "Unknown").outliers,
      o.stationName = "Unknown" := by
  have hlab : lookupOrUnknown m (sensorKey item.sensor) = "Unknown" := by
    simp [lookupOrUnknown, hemp]
  refine ⟨hlab, ?_, ?_⟩
  · rw [filterMultipleSensorOutliers, hlab]
  · intro o ho
    cases hr : item.readings with
    | nil => simp [hr, filterOutliers] at ho
    | cons r0 rs =>
        rw [hr] at ho
        have hmem : o ∈ (filterRest "Unknown" r0 rs).outliers := by
          simpa [filterOutliers] using ho
        exact filterRest_stationName "Unknown" r0 rs o hmem

/-- C10 witness: a mapping sending the entry's key to the empty string
still labels the entry's outliers `"Unknown"`. -/
theorem c10_empty_label_unknown_witness :
    lookupOrUnknown (fun _ => some "") (sensorKey ⟨"pk", "temp", "m1"⟩)
      = "Unknown" ∧
    (filterMultipleSensorOutliers
        [⟨⟨"pk", "temp", "m1"⟩, [scenarioReading 0 10, scenarioReading 1 100]⟩]
        (fun _ => some "")).allOutliers
      = (filterOutliers [scenarioReading 0 10, scenarioReading 1 100]
          "Unknown").outliers
        ++ (filterMultipleSensorOutliers [] (fun _ => some "")).allOutliers ∧
    ∀ o ∈ (filterOutliers [scenarioReading 0 10, scenarioReading 1 100]
        "Unknown").outliers,
      o.stationName = "Unknown" :=
  c10_empty_label_unknown
    ⟨⟨"pk", "temp", "m1"⟩, [scenarioReading 0 10, scenarioReading 1 100]⟩
    [] (fun _ => some "") rfl

/-- The acceptance flags the loop assigns to the tail, computed from the
value sequence alone: a reading is accepted exactly when its percent
change from the raw predecessor value is not above 300. -/
def flagsAux (prev : JNum) : List JNum → List Bool
  | [] => []
  | c :: rest =>
      (!(jgt (percentChangeOf c prev) (.fin 300))) :: flagsAux c rest

/-- The acceptance flags of a whole value sequence: the first value is
always accepted. -/
def validFlags : List JNum → List Bool
  | [] => []
  | v :: rest => true :: flagsAux v rest

/-- Positional selection of the elements whose flag is `true`. -/
def selectFlags {α : Type} : List α → List Bool → List α
  | x :: xs, b :: bs =>
      if b then x :: selectFlags xs bs else selectFlags xs bs
  | _, _ => []

/-- The valid output of the loop is the positional selection of the tail by
the flags computed from the values alone. -/
theorem filterRest_select (n : String) (prev : SensorReading)
    (rest : List SensorReading) :
    (filterRest n prev rest).validReadings
      = selectFlags rest (flagsAux prev.value (rest.map SensorReading.value))
      := by
  induction rest generalizing prev with
  | nil => rfl
  | cons c cs ih =>
      rw [filterRest]
      simp only [List.map_cons, flagsAux]
      by_cases h : jgt (percentChangeOf c.value prev.value) (JNum.fin 300)
          = true
      · simp [h, selectFlags, ih c]
      · simp [h, selectFlags, ih c]

/-- C9: classification depends only on the value sequence — two inputs
with pairwise equal values (arbitrary timestamps and metadata) get the
same acceptance-flag list, and each run's valid output is its own input
selected positionally by that shared flag list, so the sets of valid
positions coincide. -/
theorem c9_values_determine_classes (S T : List SensorReading)
    (n₁ n₂ : String)
    (h : S.map SensorReading.value = T.map SensorReading.value) :
    validFlags (S.map SensorReading.value)
      = validFlags (T.map SensorReading.value) ∧
    (filterOutliers S n₁).validReadings
      = selectFlags S (validFlags (S.map SensorReading.value)) ∧
    (filterOutliers T n₂).validReadings
      = selectFlags T (validFlags (S.map SensorReading.value)) := by
  have key : ∀ (U : List SensorReading) (n : String),
      (filterOutliers U n).validReadings
        = selectFlags U (validFlags (U.map SensorReading.value)) := by
    intro U n
    cases U with
    | nil => rfl
    | cons r0 rs =>
        simp only [filterOutliers, List.map_cons, validFlags, selectFlags,
          if_true]
        exact congrArg (List.cons r0) (filterRest_select n r0 rs)
  refine ⟨by rw [h], key S n₁, ?_⟩
  rw [h]
  exact key T n₂

/-- C9 witness: two two-element inputs with values `[10, 100]` but
different timestamps, sensor types, models and events classify the same
positions as valid. -/
theorem c9_values_determine_classes_witness :
    validFlags ([scenarioReading 0 10, scenarioReading 1 100].map
        SensorReading.value)
      = validFlags (([⟨7, "humidity", .fin 10, "m9", 3⟩,
          ⟨9, "pm25", .fin 100, "m8", 4⟩] : List SensorReading).map
        SensorReading.value) ∧
    (filterOutliers [scenarioReading 0 10, scenarioReading 1 100]
        "a").validReadings
      = selectFlags [scenarioReading 0 10, scenarioReading 1 100]
          (validFlags ([scenarioReading 0 10, scenarioReading 1 100].map
            SensorReading.value)) ∧
    (filterOutliers ([⟨7, "humidity", .fin 10, "m9", 3⟩,
        ⟨9, "pm25", .fin 100, "m8", 4⟩] : List SensorReading)
        "b").validReadings
      = selectFlags ([⟨7, "humidity", .fin 10, "m9", 3⟩,
          ⟨9, "pm25", .fin 100, "m8", 4⟩] : List SensorReading)
          (validFlags ([scenarioReading 0 10, scenarioReading 1 100].map
            SensorReading.value)) :=
  c9_values_determine_classes
    [scenarioReading 0 10, scenarioReading 1 100]
    [⟨7, "humidity", .fin 10, "m9", 3⟩, ⟨9, "pm25", .fin 100, "m8", 4⟩]
    "a" "b" rfl
